import Mathlib

/-!
Verification of the undersort file-collection and orchestration core
(`src/undersort/main.py`) against its natural-language specification.

The embedding is shallow:

* a `Path` is its list of segments (the `parts` tuple of a `pathlib.PurePath`;
  an absolute path carries the leading segment `"/"` exactly as `pathlib` does);
* the file system is an abstract structure `FS` recording the answers of
  `Path.is_file`, `Path.is_dir`, `Path.exists` and the raw enumeration produced
  by `Path.glob` before any filtering;
* `fnmatch.fnmatch` (POSIX behaviour, where `os.path.normcase` is the identity)
  is embedded as an executable shell-glob matcher over characters;
* the sorter collaborator `sort_file` is an arbitrary function returning
  `Except String Bool` (`Except.error` models a raised exception);
* `main` is embedded as `mainRun`, a pure function returning the exit code
  together with the emitted log events and the trace of sorter calls.
-/

/-- A file-system path, as its list of segments (`PurePath.parts`). -/
abbrev FilePath0 : Type := List String

/-- The string form of a path (`str(path)`): segments joined by `"/"`, with the
special cases of the empty parts tuple (`str(Path("."))` is `"."`) and of an
absolute path, whose first segment is the anchor `"/"`. -/
def pathToString (p : FilePath0) : String :=
  match p with
  | [] => "."
  | s :: rest =>
    if s = "/" then "/" ++ String.intercalate "/" rest
    else String.intercalate "/" (s :: rest)

/-- `path.name`: the final segment, or `""` for the empty path or the root
anchor alone. -/
def pathName (p : FilePath0) : String :=
  match p.getLast? with
  | none => ""
  | some s => if s = "/" then "" else s

/-- `str.rfind(c)`: index of the last occurrence of `c`, or `-1`. -/
def rfindChar (c : Char) : List Char → Int
  | [] => -1
  | a :: as =>
    let r := rfindChar c as
    if r ≥ 0 then r + 1
    else if a = c then 0 else -1

/-- `path.suffix` as computed by `pathlib`: with `name` the final segment and
`i = name.rfind(".")`, the result is `name[i:]` when `0 < i < len(name) - 1`
and `""` otherwise. -/
def pathSuffix (p : FilePath0) : String :=
  let name := (pathName p).toList
  let i := rfindChar '.' name
  if 0 < i ∧ i < (name.length : Int) - 1 then String.mk (name.drop i.toNat)
  else ""

/-- One token of a compiled shell-glob pattern, following
`fnmatch.translate`: the wildcard `*`, the single-character wildcard `?`, a
literal character, or a character class (negation flag plus member spec). -/
inductive GTok where
  | star : GTok
  | anyChar : GTok
  | lit : Char → GTok
  | cls : Bool → List Char → GTok
deriving DecidableEq, Repr

/-- Scan up to the first unescaped `]`; return the characters before it and
the remainder after it, or `none` when the class is unterminated. -/
def findClose : List Char → Option (List Char × List Char)
  | [] => none
  | c :: t =>
    if c = ']' then some ([], t)
    else
      match findClose t with
      | none => none
      | some (cls, rest) => some (c :: cls, rest)

/-- Split a character class, given the characters following `[`: a leading `!`
negates, a `]` in first position is a literal member, and an unterminated
class makes the `[` a literal character (`fnmatch.translate` behaviour). -/
def splitClass (ps : List Char) : Option (Bool × List Char × List Char) :=
  let negps : Bool × List Char :=
    match ps with
    | '!' :: t => (true, t)
    | _ => (false, ps)
  match negps.2 with
  | ']' :: t =>
    (match findClose t with
     | none => none
     | some (cls, rest) => some (negps.1, ']' :: cls, rest))
  | other =>
    (match findClose other with
     | none => none
     | some (cls, rest) => some (negps.1, cls, rest))

/-- Compile a glob pattern to tokens. The `Nat` argument is fuel, set to the
pattern length by `parsePat`; every step consumes at least one character and
one unit of fuel, so the zero-fuel branch is never reached. -/
def parsePatAux : Nat → List Char → List GTok
  | 0, _ => []
  | _, [] => []
  | fuel + 1, c :: ps =>
    if c = '*' then GTok.star :: parsePatAux fuel ps
    else if c = '?' then GTok.anyChar :: parsePatAux fuel ps
    else if c = '[' then
      match splitClass ps with
      | none => GTok.lit '[' :: parsePatAux fuel ps
      | some (neg, cls, rest) => GTok.cls neg cls :: parsePatAux fuel rest
    else GTok.lit c :: parsePatAux fuel ps

/-- Compile a glob pattern string to tokens. -/
def parsePat (pat : String) : List GTok :=
  parsePatAux pat.toList.length pat.toList

/-- Membership of a character in a character-class spec: `a-b` denotes a
range, other characters are literal members (a hyphen in first or last
position is literal, and an empty range matches nothing, as in
`fnmatch.translate`). -/
def classMatch : List Char → Char → Bool
  | [], _ => false
  | c1 :: '-' :: c2 :: rest, c =>
    (decide (c1 ≤ c) && decide (c ≤ c2)) || classMatch rest c
  | c1 :: rest, c => c1 == c || classMatch rest c

/-- Match a compiled glob pattern against the whole character list (the
translated regular expression is anchored at both ends); `*` matches any
number of characters, including `/`, exactly as `fnmatch`'s `.*` does. -/
def gmatch : List GTok → List Char → Bool
  | [], s => s.isEmpty
  | GTok.star :: ps, s =>
    (List.range (s.length + 1)).any fun k => gmatch ps (s.drop k)
  | GTok.anyChar :: ps, s =>
    (match s with
     | [] => false
     | _ :: cs => gmatch ps cs)
  | GTok.lit c :: ps, s =>
    (match s with
     | [] => false
     | d :: cs => c == d && gmatch ps cs)
  | GTok.cls neg cls :: ps, s =>
    (match s with
     | [] => false
     | d :: cs => (classMatch cls d != neg) && gmatch ps cs)

/-- `fnmatch.fnmatch(name, pat)` on a POSIX system. -/
def fnmatch (name pat : String) : Bool :=
  gmatch (parsePat pat) name.toList

/-- The inner loop of `_matches_any_pattern` (main.py lines 74-77): try every
suffix of the path's segments, rejoined into a path string, against the
pattern. -/
def matchSuffixes (file_path : FilePath0) (pattern : String) : Bool :=
  (List.range file_path.length).any fun part_idx =>
    fnmatch (pathToString (file_path.drop part_idx)) pattern

/-- The pattern loop of `_matches_any_pattern` (main.py lines 62-79), with the
early returns and the `continue` made explicit. -/
def matchLoop (path_str : String) (file_path : FilePath0) : List String → Bool
  | [] => false
  | pattern :: rest =>
    if fnmatch path_str pattern then true
    else if !(pattern.toList.contains '/') then
      (if fnmatch (pathName file_path) pattern then true
       else matchLoop path_str file_path rest)
    else if fnmatch path_str ("*/" ++ pattern) then true
    else if matchSuffixes file_path pattern then true
    else matchLoop path_str file_path rest

/-- `_matches_any_pattern(file_path, patterns)` (main.py lines 50-79). -/
def matches_any_pattern (file_path : FilePath0) (patterns : List String) : Bool :=
  matchLoop (pathToString file_path) file_path patterns

/-- Strict order on characters, as a Boolean (code-point comparison). -/
def charLtB (a b : Char) : Bool := decide (a < b)

/-- Lexicographic strict order on lists induced by a strict order on
elements; a strict prefix is smaller, matching Python sequence comparison. -/
def lexLt (lt : α → α → Bool) [DecidableEq α] : List α → List α → Bool
  | _, [] => false
  | [], _ :: _ => true
  | a :: as, b :: bs => lt a b || (decide (a = b) && lexLt lt as bs)

/-- Strict lexicographic order on strings (Python string comparison). -/
def strLtB (a b : String) : Bool := lexLt charLtB a.toList b.toList

/-- Strict lexicographic order on paths: Python compares paths by their parts
tuples, lexicographically by string. -/
def pathLtB (p q : FilePath0) : Bool := lexLt strLtB p q

/-- The reflexive closure of `pathLtB`: the total order under which `sorted`
arranges paths. -/
def pathLe (p q : FilePath0) : Prop := pathLtB p q = true ∨ p = q

instance : DecidableRel pathLe := fun p q => by
  unfold pathLe; infer_instance

/-- The fixed denylist of directory segment names (main.py lines 24-28). -/
def exclude_dirs : List String := ["venv", "__pycache__", "node_modules"]

/-- `str.startswith(".")`: the first character is a dot. -/
def startsWithDot (s : String) : Bool :=
  match s.toList with
  | [] => false
  | c :: _ => c == '.'

/-- The per-segment condition of the list comprehension on main.py line 39:
the segment is denylisted, or starts with a dot and is not `"."` itself. -/
def isExcludedPart (part : String) : Bool :=
  exclude_dirs.contains part || (startsWithDot part && part != ".")

/-- The file-system facts `collect_python_files` consults: `is_file`,
`is_dir`, `exists`, and the raw enumeration returned by
`path.glob("**/*.py")` (recursive) or `path.glob("*.py")` (non-recursive)
before any filtering, in file-system order. -/
structure FS where
  isFile : FilePath0 → Bool
  isDir : FilePath0 → Bool
  pathExists : FilePath0 → Bool
  glob : FilePath0 → Bool → List FilePath0

/-- `collect_python_files(path, recursive, exclude_patterns)` (main.py lines
13-47). Python's `sorted` is a stable sort under a total order, so its result
is the unique sorted permutation of its input; it is embedded as an insertion
sort under `pathLe`. -/
def collect_python_files (fs : FS) (path : FilePath0) (recursive : Bool)
    (exclude_patterns : Option (List String)) : List FilePath0 :=
  if fs.isFile path then
    if pathSuffix path == ".py" then [path] else []
  else if fs.isDir path then
    let all_files := fs.glob path recursive
    let filtered_files := all_files.filter fun f => !(f.any isExcludedPart)
    let filtered_files :=
      match exclude_patterns with
      | some patterns =>
        if patterns.isEmpty then filtered_files
        else filtered_files.filter fun f => !(matches_any_pattern f patterns)
      | none => filtered_files
    List.insertionSort pathLe filtered_files
  else []

/-- One emitted console message, tagged with the logger level used
(`logger.error` and so on; `print` is the raw `logger.console.print`). -/
inductive LogEvent where
  | error : String → LogEvent
  | warning : String → LogEvent
  | info : String → LogEvent
  | success : String → LogEvent
  | print : String → LogEvent
deriving DecidableEq, Repr

/-- The parsed command line: positional paths, `--check`, `--diff`,
`--no-recursive` (stored as `recursive`, default true), and the repeatable
`--exclude` (argparse `append` leaves it `None` when absent). -/
structure Args where
  paths : List FilePath0
  check : Bool
  diff : Bool
  recursive : Bool
  exclude : Option (List String)

/-- The configuration mapping as `main` reads it: the required `"order"`
value, the optional `"exclude"` pattern list, and the optional
`"method_type_order"`; the ordering values are opaque to this core. -/
structure Config (O M : Type) where
  order : O
  exclude : Option (List String)
  method_type_order : Option M

/-- The exclusion-pattern merge of main.py lines 118-123: start empty, extend
with the configuration patterns when truthy, then with the CLI patterns when
truthy. -/
def mergedExcludePatterns {O M : Type} (config : Config O M) (args : Args) :
    List String :=
  (match config.exclude with
   | some ce => if ce.isEmpty then [] else ce
   | none => []) ++
  (match args.exclude with
   | some ae => if ae.isEmpty then [] else ae
   | none => [])

/-- The messages emitted by the collection loop (main.py lines 126-132): one
error per non-existent input path, in order. -/
def missingPathLogs (fs : FS) : List FilePath0 → List LogEvent
  | [] => []
  | p :: rest =>
    (if fs.pathExists p then []
     else [LogEvent.error ("Path not found: " ++ pathToString p)]) ++
      missingPathLogs fs rest

/-- The aggregate file list built by the collection loop (main.py lines
125-132): skip non-existent input paths, extend with the collector's result
for the rest, in order. -/
def aggregateFiles (fs : FS) (recursive : Bool) (excl : Option (List String)) :
    List FilePath0 → List FilePath0
  | [] => []
  | p :: rest =>
    (if fs.pathExists p then collect_python_files fs p recursive excl else []) ++
      aggregateFiles fs recursive excl rest

/-- The state accumulated by the per-file processing loop (main.py lines
138-160), plus the trace of sorter invocations `(file, check_only)`. -/
structure ProcState where
  logs : List LogEvent
  modified_files : List FilePath0
  errors : Bool
  calls : List (FilePath0 × Bool)

/-- The per-file processing loop of main.py lines 141-160: call the sorter on
each file with `check_only := args.check` and `show_diff := args.diff`; on
success record the file when it was (or would be) modified, logging a success
message outside check mode; on a raised exception log an error naming the
file and set the error flag, then continue with the remaining files. -/
def processFiles {O M : Type}
    (sorter : FilePath0 → O → Option M → Bool → Bool → Except String Bool)
    (order : O) (mto : Option M) (check diff : Bool) :
    List FilePath0 → ProcState
  | [] => ⟨[], [], false, []⟩
  | file_path :: rest =>
    let st := processFiles sorter order mto check diff rest
    match sorter file_path order mto check diff with
    | Except.ok was_modified =>
      if was_modified then
        ⟨(if !check then [LogEvent.success ("Sorted " ++ pathToString file_path)]
          else []) ++ st.logs,
          file_path :: st.modified_files, st.errors, (file_path, check) :: st.calls⟩
      else ⟨st.logs, st.modified_files, st.errors, (file_path, check) :: st.calls⟩
    | Except.error e =>
      ⟨LogEvent.error ("Error processing " ++ pathToString file_path ++ ": " ++ e)
          :: st.logs,
        st.modified_files, true, (file_path, check) :: st.calls⟩

/-- The observable outcome of one invocation of `main`: the returned exit
code, the emitted messages in order, the recorded modified files, the error
flag, and the trace of sorter calls `(file, check_only)`. -/
structure RunResult where
  exitCode : Nat
  logs : List LogEvent
  modified_files : List FilePath0
  errors : Bool
  calls : List (FilePath0 × Bool)

/-- The argument `exclude_patterns or None` of the collector call on main.py
line 131: `None` when the merged pattern list is empty. -/
def cliExcludeArg {O M : Type} (config : Config O M) (args : Args) :
    Option (List String) :=
  if (mergedExcludePatterns config args).isEmpty then none
  else some (mergedExcludePatterns config args)

/-- The aggregate file list of one invocation: the collection loop run over
the input paths with the merged exclusion patterns. -/
def collectedFiles {O M : Type} (fs : FS) (config : Config O M) (args : Args) :
    List FilePath0 :=
  aggregateFiles fs args.recursive (cliExcludeArg config args) args.paths

/-- `main()` (main.py lines 82-173) after argument parsing: merge exclusion
patterns, collect files per input path (`exclude_patterns or None`), return 0
with a warning when nothing was collected, otherwise process every file and
compute the exit code: 1 when check mode flagged files, else 1 exactly when
some sorter call raised, else 0. -/
def mainRun {O M : Type} (fs : FS)
    (sorter : FilePath0 → O → Option M → Bool → Bool → Except String Bool)
    (config : Config O M) (args : Args) : RunResult :=
  let logs1 := missingPathLogs fs args.paths
  let all_files := collectedFiles fs config args
  if all_files.isEmpty then
    ⟨0, logs1 ++ [LogEvent.warning "No Python files found"], [], false, []⟩
  else
    let st := processFiles sorter config.order config.method_type_order
      args.check args.diff all_files
    if args.check && !st.modified_files.isEmpty then
      ⟨1,
        logs1 ++ st.logs ++
          [LogEvent.warning
            ("Files that need sorting: " ++ toString st.modified_files.length)] ++
          st.modified_files.map (fun f => LogEvent.print ("  - " ++ pathToString f)),
        st.modified_files, st.errors, st.calls⟩
    else
      let tailLogs :=
        if st.modified_files.isEmpty && !st.errors then
          [LogEvent.info "All files are already sorted correctly"]
        else if !st.modified_files.isEmpty && !args.check then
          [LogEvent.success
            ("Sorted " ++ toString st.modified_files.length ++ " file(s) successfully")]
        else []
      ⟨if st.errors then 1 else 0, logs1 ++ st.logs ++ tailLogs,
        st.modified_files, st.errors, st.calls⟩

/-- The sorter reported the file as modified (or, in check mode, as needing
change): the call returned normally with result `True`. -/
def wasModifiedB {O M : Type}
    (sorter : FilePath0 → O → Option M → Bool → Bool → Except String Bool)
    (order : O) (mto : Option M) (check diff : Bool) (f : FilePath0) : Bool :=
  match sorter f order mto check diff with
  | Except.ok b => b
  | Except.error _ => false

/-- The sorter call on the file raised an exception. -/
def raisedB {O M : Type}
    (sorter : FilePath0 → O → Option M → Bool → Bool → Except String Bool)
    (order : O) (mto : Option M) (check diff : Bool) (f : FilePath0) : Bool :=
  match sorter f order mto check diff with
  | Except.ok _ => false
  | Except.error _ => true

/-- The per-pattern decision procedure exactly as the specification words it
(spec section 4.1, steps 1-4): full-path match; otherwise, for a pattern
without a separator, basename match only; otherwise a match of the full path
against the wildcard-prefixed pattern, or of some segment suffix of the path,
rejoined as a path, against the pattern. Stated from the specification for
comparison with `matches_any_pattern`, which is translated from the code. -/
def patternDecisionSpec (file_path : FilePath0) (pattern : String) : Bool :=
  fnmatch (pathToString file_path) pattern ||
    (if !(pattern.toList.contains '/') then fnmatch (pathName file_path) pattern
     else
       fnmatch (pathToString file_path) ("*/" ++ pattern) ||
         (List.range file_path.length).any fun i =>
           fnmatch (pathToString (file_path.drop i)) pattern)

/-- A tiny concrete file system of four regular files (two of them with a
`.py` suffix, one under a `venv` segment) and no directories, used to
instantiate the theorems. -/
def fsFiles : FS where
  isFile := fun p =>
    p == ["a.py"] || p == ["b.py"] || p == ["venv", "c.py"] || p == ["b.txt"]
  isDir := fun _ => false
  pathExists := fun p =>
    p == ["a.py"] || p == ["b.py"] || p == ["venv", "c.py"] || p == ["b.txt"]
  glob := fun _ _ => []

/-- A concrete file system with one directory `d` holding two source files,
enumerated by `glob` in reverse lexicographic order. -/
def fsDirA : FS where
  isFile := fun _ => false
  isDir := fun p => p == ["d"]
  pathExists := fun p => p == ["d"]
  glob := fun p _ => if p == ["d"] then [["d", "b.py"], ["d", "a.py"]] else []

/-- The same directory contents as `fsDirA`, enumerated in the opposite
order. -/
def fsDirB : FS where
  isFile := fun _ => false
  isDir := fun p => p == ["d"]
  pathExists := fun p => p == ["d"]
  glob := fun p _ => if p == ["d"] then [["d", "a.py"], ["d", "b.py"]] else []

/-- A concrete file system whose only directory sits under a `venv` segment. -/
def fsDirVenv : FS where
  isFile := fun _ => false
  isDir := fun p => p == ["venv", "sub"]
  pathExists := fun p => p == ["venv", "sub"]
  glob := fun p _ =>
    if p == ["venv", "sub"] then [["venv", "sub", "x.py"]] else []

/-- A sorter stub that reports every file as needing change. -/
def sorterAllTrue : FilePath0 → Unit → Option Unit → Bool → Bool → Except String Bool :=
  fun _ _ _ _ _ => Except.ok true

/-- A sorter stub that raises on `a.py` and reports a modification on every
other file. -/
def sorterMixed : FilePath0 → Unit → Option Unit → Bool → Bool → Except String Bool :=
  fun p _ _ _ _ => if p == ["a.py"] then Except.error "boom" else Except.ok true

/-- A configuration with opaque ordering values and no exclusion patterns. -/
def cfgUnit : Config Unit Unit := ⟨(), none, none⟩

/-- Command line `undersort a.py b.py`. -/
def argsAB : Args := ⟨[["a.py"], ["b.py"]], false, false, true, none⟩

/-- Command line `undersort --check a.py b.py`. -/
def argsChk : Args := ⟨[["a.py"], ["b.py"]], true, false, true, none⟩

/-- Command line `undersort --check a.py a.py`: the same existing file given
twice, which the collection loop does not deduplicate. -/
def argsDup : Args := ⟨[["a.py"], ["a.py"]], true, false, true, none⟩

/-- The two filter stages of the directory branch of `collect_python_files`,
as one function of the raw glob enumeration. -/
def applyFilters (ex : Option (List String)) (l : List FilePath0) :
    List FilePath0 :=
  let l1 := l.filter fun f => !(f.any isExcludedPart)
  match ex with
  | some patterns =>
    if patterns.isEmpty then l1
    else l1.filter fun f => !(matches_any_pattern f patterns)
  | none => l1

theorem lexLt_irrefl (lt : α → α → Bool) [DecidableEq α]
    (hirr : ∀ a, lt a a = false) : ∀ p, lexLt lt p p = false := by
  intro p
  induction p with
  | nil => rfl
  | cons a as ih => simp [lexLt, hirr a, ih]

theorem lexLt_trans (lt : α → α → Bool) [DecidableEq α]
    (htr : ∀ a b c, lt a b = true → lt b c = true → lt a c = true) :
    ∀ p q r, lexLt lt p q = true → lexLt lt q r = true → lexLt lt p r = true := by
  intro p
  induction p with
  | nil =>
    intro q r h1 h2
    cases q with
    | nil => simp [lexLt] at h1
    | cons b bs =>
      cases r with
      | nil => simp [lexLt] at h2
      | cons c cs => simp [lexLt]
  | cons a as ih =>
    intro q r h1 h2
    cases q with
    | nil => simp [lexLt] at h1
    | cons b bs =>
      cases r with
      | nil => simp [lexLt] at h2
      | cons c cs =>
        simp only [lexLt, Bool.or_eq_true, Bool.and_eq_true, decide_eq_true_eq]
          at h1 h2 ⊢
        rcases h1 with h1 | ⟨rfl, h1⟩
        · rcases h2 with h2 | ⟨rfl, h2⟩
          · exact Or.inl (htr _ _ _ h1 h2)
          · exact Or.inl h1
        · rcases h2 with h2 | ⟨rfl, h2⟩
          · exact Or.inl h2
          · exact Or.inr ⟨rfl, ih _ _ h1 h2⟩

theorem lexLt_connex (lt : α → α → Bool) [DecidableEq α]
    (hconn : ∀ a b, lt a b = false → lt b a = false → a = b) :
    ∀ p q, lexLt lt p q = false → lexLt lt q p = false → p = q := by
  intro p
  induction p with
  | nil =>
    intro q h1 _
    cases q with
    | nil => rfl
    | cons b bs => simp [lexLt] at h1
  | cons a as ih =>
    intro q h1 h2
    cases q with
    | nil => simp [lexLt] at h2
    | cons b bs =>
      simp only [lexLt, Bool.or_eq_false_iff, Bool.and_eq_false_iff,
        decide_eq_false_iff_not] at h1 h2
      have hab : a = b := hconn a b h1.1 h2.1
      subst hab
      rcases h1.2 with h | h
      · exact absurd rfl h
      · rcases h2.2 with h' | h'
        · exact absurd rfl h'
        · rw [ih bs h h']

theorem charLtB_irrefl (a : Char) : charLtB a a = false := by
  simp [charLtB]

theorem charLtB_trans (a b c : Char) (h1 : charLtB a b = true)
    (h2 : charLtB b c = true) : charLtB a c = true := by
  simp only [charLtB, decide_eq_true_eq] at h1 h2 ⊢
  exact lt_trans h1 h2

theorem charLtB_connex (a b : Char) (h1 : charLtB a b = false)
    (h2 : charLtB b a = false) : a = b := by
  simp only [charLtB, decide_eq_false_iff_not, not_lt] at h1 h2
  exact le_antisymm h2 h1

theorem string_toList_inj {a b : String} (h : a.toList = b.toList) : a = b := by
  cases a
  cases b
  simp only [String.toList] at h
  exact congrArg String.mk h

theorem strLtB_irrefl (a : String) : strLtB a a = false :=
  lexLt_irrefl charLtB charLtB_irrefl a.toList

theorem strLtB_trans (a b c : String) (h1 : strLtB a b = true)
    (h2 : strLtB b c = true) : strLtB a c = true :=
  lexLt_trans charLtB charLtB_trans a.toList b.toList c.toList h1 h2

theorem strLtB_connex (a b : String) (h1 : strLtB a b = false)
    (h2 : strLtB b a = false) : a = b :=
  string_toList_inj (lexLt_connex charLtB charLtB_connex a.toList b.toList h1 h2)

theorem pathLtB_irrefl (p : FilePath0) : pathLtB p p = false :=
  lexLt_irrefl strLtB strLtB_irrefl p

theorem pathLtB_trans (p q r : FilePath0) (h1 : pathLtB p q = true)
    (h2 : pathLtB q r = true) : pathLtB p r = true :=
  lexLt_trans strLtB strLtB_trans p q r h1 h2

theorem pathLtB_connex (p q : FilePath0) (h1 : pathLtB p q = false)
    (h2 : pathLtB q p = false) : p = q :=
  lexLt_connex strLtB strLtB_connex p q h1 h2

instance : IsTrans FilePath0 pathLe where
  trans := by
    intro p q r h1 h2
    rcases h1 with h1 | rfl
    · rcases h2 with h2 | rfl
      · exact Or.inl (pathLtB_trans p q r h1 h2)
      · exact Or.inl h1
    · exact h2

instance : IsAntisymm FilePath0 pathLe where
  antisymm := by
    intro p q h1 h2
    rcases h1 with h1 | rfl
    · rcases h2 with h2 | rfl
      · have := pathLtB_trans p q p h1 h2
        rw [pathLtB_irrefl] at this
        exact absurd this (by simp)
      · rfl
    · rfl

instance : IsTotal FilePath0 pathLe where
  total := by
    intro p q
    cases h1 : pathLtB p q with
    | true => exact Or.inl (Or.inl h1)
    | false =>
      cases h2 : pathLtB q p with
      | true => exact Or.inr (Or.inl h2)
      | false => exact Or.inl (Or.inr (pathLtB_connex p q h1 h2))

theorem matchLoop_eq_any_spec (fp : FilePath0) (ps : List String) :
    matchLoop (pathToString fp) fp ps = ps.any (patternDecisionSpec fp) := by
  induction ps with
  | nil => rfl
  | cons p rest ih =>
    unfold matchLoop
    cases h1 : fnmatch (pathToString fp) p with
    | true => simp [patternDecisionSpec, h1]
    | false =>
      cases h2 : p.toList.contains '/' with
      | false =>
        simp only [String.toList] at h2
        simp at h2
        cases h3 : fnmatch (pathName fp) p with
        | true => simp [patternDecisionSpec, h1, h2, h3]
        | false => simp [patternDecisionSpec, h1, h2, h3, ih]
      | true =>
        simp only [String.toList] at h2
        simp at h2
        cases h4 : fnmatch (pathToString fp) ("*/" ++ p) with
        | true => simp [patternDecisionSpec, h1, h2, h4]
        | false =>
          cases h5 : matchSuffixes fp p with
          | true =>
            simp only [matchSuffixes] at h5
            simp at h5
            simp [patternDecisionSpec, h1, h2, h4, h5]
          | false =>
            simp only [matchSuffixes] at h5
            simp at h5
            simp [patternDecisionSpec, h1, h2, h4, h5, ih]
            intro x hx hcontra
            rw [h5 x hx] at hcontra
            cases hcontra

theorem collect_dir_mem (fs : FS) (root : FilePath0) (rec : Bool)
    (ex : Option (List String)) (hfile : fs.isFile root = false)
    {p : FilePath0} (hp : p ∈ collect_python_files fs root rec ex) :
    p ∈ fs.glob root rec ∧ p.any isExcludedPart = false ∧
      (∀ ps, ex = some ps → ps ≠ [] → matches_any_pattern p ps = false) := by
  cases hdir : fs.isDir root with
  | false =>
    simp [collect_python_files, hfile, hdir] at hp
  | true =>
    cases ex with
    | none =>
      simp only [collect_python_files, hfile, hdir, Bool.false_eq_true, if_false,
        if_true, List.mem_insertionSort, List.mem_filter, Bool.not_eq_eq_eq_not,
        Bool.not_true] at hp
      exact ⟨hp.1, hp.2, by intro ps h; cases h⟩
    | some ps =>
      cases hps : ps.isEmpty with
      | true =>
        simp only [collect_python_files, hfile, hdir, Bool.false_eq_true, if_false,
          if_true, hps, List.mem_insertionSort, List.mem_filter,
          Bool.not_eq_eq_eq_not, Bool.not_true] at hp
        refine ⟨hp.1, hp.2, ?_⟩
        intro qs hq hne
        cases hq
        exact absurd (List.isEmpty_iff.mp hps) hne
      | false =>
        simp only [collect_python_files, hfile, hdir, Bool.false_eq_true, if_false,
          if_true, hps, List.mem_insertionSort, List.mem_filter,
          Bool.not_eq_eq_eq_not, Bool.not_true] at hp
        refine ⟨hp.1.1, hp.1.2, ?_⟩
        intro qs hq _
        cases hq
        exact hp.2

theorem collect_dir_eq (fs : FS) (root : FilePath0) (rec : Bool)
    (ex : Option (List String)) (hfile : fs.isFile root = false)
    (hdir : fs.isDir root = true) :
    collect_python_files fs root rec ex =
      List.insertionSort pathLe (applyFilters ex (fs.glob root rec)) := by
  cases ex with
  | none => simp [collect_python_files, hfile, hdir, applyFilters]
  | some ps =>
    cases hps : ps.isEmpty <;>
      simp [collect_python_files, hfile, hdir, applyFilters, hps]

theorem applyFilters_perm (ex : Option (List String)) {l₁ l₂ : List FilePath0}
    (h : l₁.Perm l₂) : (applyFilters ex l₁).Perm (applyFilters ex l₂) := by
  cases ex with
  | none => exact h.filter _
  | some ps =>
    cases hps : ps.isEmpty with
    | true => simpa [applyFilters, hps] using h.filter _
    | false => simpa [applyFilters, hps] using (h.filter _).filter _

theorem processFiles_modified {O M : Type}
    (sorter : FilePath0 → O → Option M → Bool → Bool → Except String Bool)
    (order : O) (mto : Option M) (check diff : Bool) (files : List FilePath0) :
    (processFiles sorter order mto check diff files).modified_files =
      files.filter (wasModifiedB sorter order mto check diff) := by
  induction files with
  | nil => rfl
  | cons f rest ih =>
    simp only [processFiles]
    ; cases hs : sorter f order mto check diff with
    | ok b => cases b <;> simp [wasModifiedB, List.filter_cons, hs, ih]
    | error e => simp [wasModifiedB, List.filter_cons, hs, ih]

theorem processFiles_errors {O M : Type}
    (sorter : FilePath0 → O → Option M → Bool → Bool → Except String Bool)
    (order : O) (mto : Option M) (check diff : Bool) (files : List FilePath0) :
    (processFiles sorter order mto check diff files).errors =
      files.any (raisedB sorter order mto check diff) := by
  induction files with
  | nil => rfl
  | cons f rest ih =>
    simp only [processFiles]
    ; cases hs : sorter f order mto check diff with
    | ok b => cases b <;> simp [raisedB, hs, ih]
    | error e => simp [raisedB, hs, ih]

theorem processFiles_calls {O M : Type}
    (sorter : FilePath0 → O → Option M → Bool → Bool → Except String Bool)
    (order : O) (mto : Option M) (check diff : Bool) (files : List FilePath0) :
    (processFiles sorter order mto check diff files).calls =
      files.map (fun f => (f, check)) := by
  induction files with
  | nil => rfl
  | cons f rest ih =>
    simp only [processFiles]
    ; cases hs : sorter f order mto check diff with
    | ok b => cases b <;> simp [hs, ih]
    | error e => simp [hs, ih]

theorem processFiles_error_logged {O M : Type}
    (sorter : FilePath0 → O → Option M → Bool → Bool → Except String Bool)
    (order : O) (mto : Option M) (check diff : Bool) (files : List FilePath0)
    (f : FilePath0) (e : String) (hf : f ∈ files)
    (hs : sorter f order mto check diff = Except.error e) :
    LogEvent.error ("Error processing " ++ pathToString f ++ ": " ++ e) ∈
      (processFiles sorter order mto check diff files).logs := by
  induction files with
  | nil => cases hf
  | cons g rest ih =>
    simp only [processFiles]
    rcases List.mem_cons.mp hf with rfl | hf'
    · rw [hs]
      exact List.mem_cons_self _ _
    · cases hg : sorter g order mto check diff with
      | ok b =>
        cases b
        · simpa using ih hf'
        · exact List.mem_append_right _ (ih hf')
      | error e2 => exact List.mem_cons_of_mem _ (ih hf')

theorem processFiles_success_logged {O M : Type}
    (sorter : FilePath0 → O → Option M → Bool → Bool → Except String Bool)
    (order : O) (mto : Option M) (check diff : Bool) (files : List FilePath0)
    (f : FilePath0) (hf : f ∈ files)
    (hs : sorter f order mto check diff = Except.ok true) (hc : check = false) :
    LogEvent.success ("Sorted " ++ pathToString f) ∈
      (processFiles sorter order mto check diff files).logs := by
  induction files with
  | nil => cases hf
  | cons g rest ih =>
    simp only [processFiles]
    rcases List.mem_cons.mp hf with rfl | hf'
    · rw [hs, hc]
      simp
    · cases hg : sorter g order mto check diff with
      | ok b =>
        cases b
        · simpa using ih hf'
        · exact List.mem_append_right _ (ih hf')
      | error e2 => exact List.mem_cons_of_mem _ (ih hf')

theorem processFiles_no_print {O M : Type}
    (sorter : FilePath0 → O → Option M → Bool → Bool → Except String Bool)
    (order : O) (mto : Option M) (check diff : Bool) (files : List FilePath0)
    (s : String) :
    LogEvent.print s ∉ (processFiles sorter order mto check diff files).logs := by
  induction files with
  | nil => simp [processFiles]
  | cons g rest ih =>
    simp only [processFiles]
    cases hg : sorter g order mto check diff with
    | ok b =>
      cases b
      · simpa using ih
      · cases check
        · simp [ih]
        · simp [ih]
    | error e => simp [ih]

theorem missingPathLogs_no_print (fs : FS) (paths : List FilePath0) (s : String) :
    LogEvent.print s ∉ missingPathLogs fs paths := by
  induction paths with
  | nil => simp [missingPathLogs]
  | cons p rest ih =>
    simp only [missingPathLogs]
    cases hp : fs.pathExists p <;> simp [ih]

theorem any_eq_not_isEmpty_filter (p : α → Bool) (l : List α) :
    l.any p = !(l.filter p).isEmpty := by
  induction l with
  | nil => rfl
  | cons a l ih => cases h : p a <;> simp [List.filter_cons, h, ih]

theorem mainRun_proc {O M : Type} (fs : FS)
    (sorter : FilePath0 → O → Option M → Bool → Bool → Except String Bool)
    (config : Config O M) (args : Args)
    (hne : (collectedFiles fs config args).isEmpty = false) :
    (mainRun fs sorter config args).modified_files =
        (processFiles sorter config.order config.method_type_order args.check
          args.diff (collectedFiles fs config args)).modified_files ∧
      (mainRun fs sorter config args).errors =
        (processFiles sorter config.order config.method_type_order args.check
          args.diff (collectedFiles fs config args)).errors ∧
      (mainRun fs sorter config args).calls =
        (processFiles sorter config.order config.method_type_order args.check
          args.diff (collectedFiles fs config args)).calls ∧
      ∀ ev ∈ (processFiles sorter config.order config.method_type_order args.check
          args.diff (collectedFiles fs config args)).logs,
        ev ∈ (mainRun fs sorter config args).logs := by
  simp only [mainRun, hne, Bool.false_eq_true, if_false]
  cases h : (args.check && !(processFiles sorter config.order config.method_type_order
      args.check args.diff (collectedFiles fs config args)).modified_files.isEmpty) with
  | true =>
    simp only [h, if_true]
    refine ⟨trivial, trivial, trivial, ?_⟩
    intro ev hev
    simp [hev]
  | false =>
    simp only [h, Bool.false_eq_true, if_false]
    refine ⟨trivial, trivial, trivial, ?_⟩
    intro ev hev
    simp [hev]

theorem mainRun_exitCode {O M : Type} (fs : FS)
    (sorter : FilePath0 → O → Option M → Bool → Bool → Except String Bool)
    (config : Config O M) (args : Args) :
    (mainRun fs sorter config args).exitCode =
      if (args.check && (collectedFiles fs config args).any
            (wasModifiedB sorter config.order config.method_type_order
              args.check args.diff))
          || (collectedFiles fs config args).any
            (raisedB sorter config.order config.method_type_order
              args.check args.diff)
      then 1 else 0 := by
  cases hne : (collectedFiles fs config args).isEmpty with
  | true =>
    have hnil : collectedFiles fs config args = [] := List.isEmpty_iff.mp hne
    simp [mainRun, hne, hnil]
  | false =>
    have hm := processFiles_modified sorter config.order config.method_type_order
      args.check args.diff (collectedFiles fs config args)
    have he := processFiles_errors sorter config.order config.method_type_order
      args.check args.diff (collectedFiles fs config args)
    have hany := any_eq_not_isEmpty_filter
      (wasModifiedB sorter config.order config.method_type_order args.check args.diff)
      (collectedFiles fs config args)
    simp only [mainRun, hne, Bool.false_eq_true, if_false]
    rw [hany, ← hm, ← he]
    cases h1 : (args.check && !(processFiles sorter config.order
        config.method_type_order args.check args.diff
        (collectedFiles fs config args)).modified_files.isEmpty) with
    | true => simp [h1]
    | false =>
      cases h2 : (processFiles sorter config.order config.method_type_order
          args.check args.diff (collectedFiles fs config args)).errors <;>
        simp [h1, h2]

theorem mainRun_check_logs {O M : Type} (fs : FS)
    (sorter : FilePath0 → O → Option M → Bool → Bool → Except String Bool)
    (config : Config O M) (args : Args)
    (hne : (collectedFiles fs config args).isEmpty = false)
    (hchk : (args.check && !(processFiles sorter config.order
        config.method_type_order args.check args.diff
        (collectedFiles fs config args)).modified_files.isEmpty) = true) :
    (mainRun fs sorter config args).logs =
      missingPathLogs fs args.paths ++
        (processFiles sorter config.order config.method_type_order args.check
          args.diff (collectedFiles fs config args)).logs ++
        [LogEvent.warning ("Files that need sorting: " ++
          toString (processFiles sorter config.order config.method_type_order
            args.check args.diff (collectedFiles fs config args)).modified_files.length)] ++
        (processFiles sorter config.order config.method_type_order args.check
          args.diff (collectedFiles fs config args)).modified_files.map
          (fun f => LogEvent.print ("  - " ++ pathToString f)) := by
  simp only [mainRun, hne, Bool.false_eq_true, if_false, hchk, if_true]

/-- C2: for every path and pattern set, `_matches_any_pattern` implements
exactly the per-pattern decision the specification describes — full-path glob
match; otherwise, for a separator-free pattern, a basename-only match with no
further path-anchored attempts; otherwise a match of the full path against
the wildcard-prefixed pattern or of some rejoined segment suffix against the
pattern — and the overall result is true iff at least one pattern in the set
succeeds. -/
theorem matcher_follows_spec_decision (file_path : FilePath0)
    (patterns : List String) :
    matches_any_pattern file_path patterns =
      patterns.any (patternDecisionSpec file_path) :=
  matchLoop_eq_any_spec file_path patterns

/-- C9: for every path and pattern lists P and Q, matching against the
concatenation P ++ Q succeeds iff matching against P or against Q succeeds,
so the excluded set under concatenation is the set union and is unchanged
when the concatenation order is reversed. -/
theorem matcher_concat_is_union (file_path : FilePath0) (P Q : List String) :
    matches_any_pattern file_path (P ++ Q) =
        (matches_any_pattern file_path P || matches_any_pattern file_path Q) ∧
      matches_any_pattern file_path (P ++ Q) =
        matches_any_pattern file_path (Q ++ P) := by
  unfold matches_any_pattern
  constructor
  · rw [matchLoop_eq_any_spec, matchLoop_eq_any_spec, matchLoop_eq_any_spec,
      List.any_append]
  · rw [matchLoop_eq_any_spec, matchLoop_eq_any_spec, List.any_append,
      List.any_append, Bool.or_comm]

/-- C3: `main` returns exit code 1 iff check mode was requested and some
collected file was reported by the sorter as needing change, or some sorter
call raised; in every other case, including an empty aggregate file list, it
returns 0. -/
theorem main_exit_code_characterization {O M : Type} (fs : FS)
    (sorter : FilePath0 → O → Option M → Bool → Bool → Except String Bool)
    (config : Config O M) (args : Args) :
    (mainRun fs sorter config args).exitCode =
      if (args.check && (collectedFiles fs config args).any
            (wasModifiedB sorter config.order config.method_type_order
              args.check args.diff))
          || (collectedFiles fs config args).any
            (raisedB sorter config.order config.method_type_order
              args.check args.diff)
      then 1 else 0 :=
  mainRun_exitCode fs sorter config args

/-- C5: for a root that is an existing regular file, `collect_python_files`
returns the one-element list holding the root iff the root's suffix is
`.py`, and the empty list otherwise; for a root that is neither an existing
file nor an existing directory it returns the empty list. -/
theorem collect_single_file (fs : FS) (root : FilePath0) (rec : Bool)
    (ex : Option (List String)) :
    (fs.isFile root = true →
      ((collect_python_files fs root rec ex = [root] ↔ pathSuffix root = ".py") ∧
        (pathSuffix root ≠ ".py" → collect_python_files fs root rec ex = []))) ∧
      (fs.isFile root = false → fs.isDir root = false →
        collect_python_files fs root rec ex = []) := by
  constructor
  · intro hfile
    by_cases hs : pathSuffix root = ".py"
    · simp [collect_python_files, hfile, hs]
    · simp [collect_python_files, hfile, hs]
  · intro hfile hdir
    simp [collect_python_files, hfile, hdir]

/-- C5 witness: on the concrete file system, a `.py` file root is returned
singly, a `.txt` file root yields nothing, and a missing root yields
nothing. -/
theorem collect_single_file_witness :
    collect_python_files fsFiles ["a.py"] true none = [["a.py"]] ∧
      collect_python_files fsFiles ["b.txt"] true none = [] ∧
      collect_python_files fsFiles ["nosuch"] true none = [] := by
  refine ⟨?_, ?_, ?_⟩
  · exact ((collect_single_file fsFiles ["a.py"] true none).1 (by decide)).1.mpr
      (by decide)
  · exact ((collect_single_file fsFiles ["b.txt"] true none).1 (by decide)).2
      (by decide)
  · exact (collect_single_file fsFiles ["nosuch"] true none).2 (by decide)
      (by decide)

/-- C1 counterexample: the claim fails as stated. With the root itself a
regular `.py` file whose path matches the supplied exclusion pattern, the
collector still returns it: the single-file branch runs before any pattern
filtering. -/
theorem collector_pattern_invariant_cex :
    matches_any_pattern ["a.py"] ["a.py"] = true ∧
      collect_python_files fsFiles ["a.py"] true (some ["a.py"]) = [["a.py"]] := by
  decide

/-- C1 (amended): when the root is not a regular file — in particular for
every directory root — no path returned by the collector matches any of the
supplied (non-empty) exclusion patterns. -/
theorem collector_respects_patterns_on_dirs (fs : FS) (root : FilePath0)
    (rec : Bool) (ps : List String) (hfile : fs.isFile root = false)
    (hps : ps ≠ []) :
    ∀ p ∈ collect_python_files fs root rec (some ps),
      matches_any_pattern p ps = false := by
  intro p hp
  exact (collect_dir_mem fs root rec (some ps) hfile hp).2.2 ps rfl hps

/-- C1 (amended) witness: the kept file of the concrete directory does not
match the supplied pattern. -/
theorem collector_respects_patterns_on_dirs_witness :
    matches_any_pattern ["d", "a.py"] ["b*"] = false :=
  collector_respects_patterns_on_dirs fsDirA ["d"] true ["b*"] (by decide)
    (by decide) ["d", "a.py"] (by decide)

/-- C4 counterexample: the claim fails as stated. With the root itself a
regular `.py` file lying under a `venv` segment, the collector returns it:
the single-file branch runs before the segment denylist filter. -/
theorem collector_denylist_invariant_cex :
    collect_python_files fsFiles ["venv", "c.py"] true none = [["venv", "c.py"]] ∧
      isExcludedPart "venv" = true := by
  decide

/-- C4 (amended): when the root is not a regular file — in particular for
every directory root — no path returned by the collector has a segment that
is denylisted (`venv`, `__pycache__`, `node_modules`) or starts with a dot
(other than `.` itself), regardless of exclusion patterns. -/
theorem collector_denylist_on_dirs (fs : FS) (root : FilePath0) (rec : Bool)
    (ex : Option (List String)) (hfile : fs.isFile root = false) :
    ∀ p ∈ collect_python_files fs root rec ex,
      p.any isExcludedPart = false := by
  intro p hp
  exact (collect_dir_mem fs root rec ex hfile hp).2.1

/-- C4 (amended) witness: a returned file of the concrete directory has no
denylisted or dotted segment. -/
theorem collector_denylist_on_dirs_witness :
    (["d", "a.py"] : FilePath0).any isExcludedPart = false :=
  collector_denylist_on_dirs fsDirA ["d"] true none (by decide) ["d", "a.py"]
    (by decide)

/-- C8: for every directory root, the collector's output is sorted ascending
in lexicographic path order, and two runs over the same directory contents —
glob enumerations that are permutations of each other — return the same
list. -/
theorem collect_sorted_deterministic (fs₁ fs₂ : FS) (root : FilePath0)
    (rec : Bool) (ex : Option (List String))
    (h₁f : fs₁.isFile root = false) (h₁d : fs₁.isDir root = true)
    (h₂f : fs₂.isFile root = false) (h₂d : fs₂.isDir root = true)
    (hperm : (fs₁.glob root rec).Perm (fs₂.glob root rec)) :
    List.Sorted pathLe (collect_python_files fs₁ root rec ex) ∧
      collect_python_files fs₁ root rec ex =
        collect_python_files fs₂ root rec ex := by
  rw [collect_dir_eq fs₁ root rec ex h₁f h₁d,
    collect_dir_eq fs₂ root rec ex h₂f h₂d]
  constructor
  · exact List.sorted_insertionSort pathLe _
  · exact List.eq_of_perm_of_sorted
      ((List.perm_insertionSort _ _).trans
        ((applyFilters_perm ex hperm).trans (List.perm_insertionSort _ _).symm))
      (List.sorted_insertionSort _ _) (List.sorted_insertionSort _ _)

/-- C8 witness: the two concrete enumeration orders of the same directory
give a sorted and identical result. -/
theorem collect_sorted_deterministic_witness :
    List.Sorted pathLe (collect_python_files fsDirA ["d"] true none) ∧
      collect_python_files fsDirA ["d"] true none =
        collect_python_files fsDirB ["d"] true none :=
  collect_sorted_deterministic fsDirA fsDirB ["d"] true none (by decide)
    (by decide) (by decide) (by decide) (by decide)

/-- C10: for an existing directory root whose own path already contains a
denylisted or dotted segment, the collector returns the empty list in both
recursive and non-recursive modes, because every glob result extends the
root's own segments and the segment filter inspects all of them. -/
theorem collect_denylisted_root_empty (fs : FS) (root : FilePath0)
    (rec : Bool) (ex : Option (List String))
    (hfile : fs.isFile root = false) (hdir : fs.isDir root = true)
    (hbad : root.any isExcludedPart = true)
    (hglob : ∀ f ∈ fs.glob root rec, ∃ rest, f = root ++ rest) :
    collect_python_files fs root rec ex = [] := by
  rw [collect_dir_eq fs root rec ex hfile hdir]
  have h1 : (fs.glob root rec).filter (fun f => !(f.any isExcludedPart)) = [] := by
    rw [List.filter_eq_nil_iff]
    intro f hf
    obtain ⟨rest, rfl⟩ := hglob f hf
    simp [List.any_append, hbad]
  have h2 : applyFilters ex (fs.glob root rec) = [] := by
    cases ex with
    | none => simpa [applyFilters] using h1
    | some ps =>
      cases hps : ps.isEmpty with
      | true => simpa [applyFilters, hps] using h1
      | false => simp [applyFilters, hps, h1]
  rw [h2]
  rfl

/-- C10 witness: the concrete directory under a `venv` segment collects to
the empty list. -/
theorem collect_denylisted_root_empty_witness :
    collect_python_files fsDirVenv ["venv", "sub"] true none = [] :=
  collect_denylisted_root_empty fsDirVenv ["venv", "sub"] true none (by decide)
    (by decide) (by decide)
    (by
      intro f hf
      simp [fsDirVenv] at hf
      subst hf
      exact ⟨["x.py"], rfl⟩)

theorem print_prefixed_injective :
    Function.Injective (fun s => LogEvent.print ("  - " ++ s)) := by
  intro s t h
  simp only [LogEvent.print.injEq] at h
  have hd : ("  - " ++ s).data = ("  - " ++ t).data := congrArg String.data h
  simp only [String.data_append] at hd
  have hd2 : s.data = t.data := List.append_cancel_left hd
  exact string_toList_inj hd2

/-- C6: a sorter failure does not abort the batch — every collected file is
still passed to the sorter (failing ones included), every failing file's
error is logged, every file the sorter reports as modified is still recorded
(and its success logged outside check mode), and the run exits with code 1. -/
theorem sorter_failure_does_not_abort {O M : Type} (fs : FS)
    (sorter : FilePath0 → O → Option M → Bool → Bool → Except String Bool)
    (config : Config O M) (args : Args)
    (hfail : ∃ f ∈ collectedFiles fs config args,
      raisedB sorter config.order config.method_type_order args.check
        args.diff f = true) :
    (mainRun fs sorter config args).calls =
        (collectedFiles fs config args).map (fun f => (f, args.check)) ∧
      (∀ f ∈ collectedFiles fs config args, ∀ e : String,
        sorter f config.order config.method_type_order args.check args.diff =
            Except.error e →
          LogEvent.error ("Error processing " ++ pathToString f ++ ": " ++ e) ∈
            (mainRun fs sorter config args).logs) ∧
      (∀ g ∈ collectedFiles fs config args,
        sorter g config.order config.method_type_order args.check args.diff =
            Except.ok true →
          g ∈ (mainRun fs sorter config args).modified_files ∧
            (args.check = false →
              LogEvent.success ("Sorted " ++ pathToString g) ∈
                (mainRun fs sorter config args).logs)) ∧
      (mainRun fs sorter config args).exitCode = 1 := by
  obtain ⟨f0, hf0, hr0⟩ := hfail
  have hne : (collectedFiles fs config args).isEmpty = false := by
    cases h : (collectedFiles fs config args).isEmpty with
    | false => rfl
    | true =>
      rw [List.isEmpty_iff.mp h] at hf0
      cases hf0
  obtain ⟨hmod, herr, hcalls, hlogs⟩ := mainRun_proc fs sorter config args hne
  refine ⟨?_, ?_, ?_, ?_⟩
  · rw [hcalls, processFiles_calls]
  · intro f hf e hs
    exact hlogs _ (processFiles_error_logged sorter config.order
      config.method_type_order args.check args.diff _ f e hf hs)
  · intro g hg hs
    constructor
    · rw [hmod, processFiles_modified]
      exact List.mem_filter.mpr ⟨hg, by simp [wasModifiedB, hs]⟩
    · intro hc
      exact hlogs _ (processFiles_success_logged sorter config.order
        config.method_type_order args.check args.diff _ g hg hs hc)
  · rw [mainRun_exitCode]
    have hany : (collectedFiles fs config args).any
        (raisedB sorter config.order config.method_type_order args.check
          args.diff) = true :=
      List.any_eq_true.mpr ⟨f0, hf0, hr0⟩
    simp [hany]

/-- C6 witness: with a sorter raising on `a.py` and modifying `b.py`, the run
calls both files, records and reports the second, logs the first's error, and
exits 1. -/
theorem sorter_failure_does_not_abort_witness :
    (mainRun fsFiles sorterMixed cfgUnit argsAB).calls =
        [(["a.py"], false), (["b.py"], false)] ∧
      LogEvent.error ("Error processing " ++ pathToString ["a.py"] ++ ": " ++
        "boom") ∈ (mainRun fsFiles sorterMixed cfgUnit argsAB).logs ∧
      ["b.py"] ∈ (mainRun fsFiles sorterMixed cfgUnit argsAB).modified_files ∧
      LogEvent.success ("Sorted " ++ pathToString ["b.py"]) ∈
        (mainRun fsFiles sorterMixed cfgUnit argsAB).logs ∧
      (mainRun fsFiles sorterMixed cfgUnit argsAB).exitCode = 1 := by
  have h := sorter_failure_does_not_abort fsFiles sorterMixed cfgUnit argsAB
    (by decide)
  refine ⟨?_, ?_, ?_, ?_, h.2.2.2⟩
  · rw [h.1]
    decide
  · exact h.2.1 ["a.py"] (by decide) "boom" rfl
  · exact (h.2.2.1 ["b.py"] (by decide) rfl).1
  · exact (h.2.2.1 ["b.py"] (by decide) rfl).2 rfl

theorem count_print_map (l : List FilePath0) (f : FilePath0)
    (hmem : pathToString f ∈ l.map pathToString)
    (hnd : (l.map pathToString).Nodup) :
    (l.map (fun g => LogEvent.print ("  - " ++ pathToString g))).count
      (LogEvent.print ("  - " ++ pathToString f)) = 1 := by
  have h1 : l.map (fun g => LogEvent.print ("  - " ++ pathToString g)) =
      (l.map pathToString).map (fun s => LogEvent.print ("  - " ++ s)) := by
    rw [List.map_map]
    rfl
  rw [h1]
  have h2 := List.count_map_of_injective (l.map pathToString)
    (fun s => LogEvent.print ("  - " ++ s)) print_prefixed_injective
    (pathToString f)
  rw [h2]
  exact List.count_eq_one_of_mem hnd hmem

/-- C7 (amended): given check mode, at least one collected file flagged by
the sorter as needing change, and no two collected entries sharing a path
string, the run exits with code 1, lists every flagged file exactly once in
the final report, and every sorter call receives check_only = True. When the
collection contains duplicate entries (the same path given twice), a flagged
file is instead listed once per occurrence, as the counterexample shows. -/
theorem check_mode_lists_flagged_once {O M : Type} (fs : FS)
    (sorter : FilePath0 → O → Option M → Bool → Bool → Except String Bool)
    (config : Config O M) (args : Args) (hchk : args.check = true)
    (hflag : ∃ f ∈ collectedFiles fs config args,
      wasModifiedB sorter config.order config.method_type_order args.check
        args.diff f = true)
    (hnodup : ((collectedFiles fs config args).map pathToString).Nodup) :
    (mainRun fs sorter config args).exitCode = 1 ∧
      (∀ f ∈ collectedFiles fs config args,
        wasModifiedB sorter config.order config.method_type_order args.check
            args.diff f = true →
          (mainRun fs sorter config args).logs.count
            (LogEvent.print ("  - " ++ pathToString f)) = 1) ∧
      ∀ c ∈ (mainRun fs sorter config args).calls, c.2 = true := by
  obtain ⟨f0, hf0, hw0⟩ := hflag
  have hne : (collectedFiles fs config args).isEmpty = false := by
    cases h : (collectedFiles fs config args).isEmpty with
    | false => rfl
    | true =>
      rw [List.isEmpty_iff.mp h] at hf0
      cases hf0
  have hanyW : (collectedFiles fs config args).any
      (wasModifiedB sorter config.order config.method_type_order args.check
        args.diff) = true :=
    List.any_eq_true.mpr ⟨f0, hf0, hw0⟩
  have hmodeq := processFiles_modified sorter config.order
    config.method_type_order args.check args.diff (collectedFiles fs config args)
  have hfe : ((collectedFiles fs config args).filter
      (wasModifiedB sorter config.order config.method_type_order args.check
        args.diff)).isEmpty = false := by
    have h := any_eq_not_isEmpty_filter
      (wasModifiedB sorter config.order config.method_type_order args.check
        args.diff) (collectedFiles fs config args)
    rw [hanyW] at h
    cases hie : ((collectedFiles fs config args).filter
        (wasModifiedB sorter config.order config.method_type_order args.check
          args.diff)).isEmpty with
    | false => rfl
    | true =>
      rw [hie] at h
      cases h
  have hcond : (args.check && !(processFiles sorter config.order
      config.method_type_order args.check args.diff
      (collectedFiles fs config args)).modified_files.isEmpty) = true := by
    rw [hmodeq, hfe, hchk]
    rfl
  have hlogsEq := mainRun_check_logs fs sorter config args hne hcond
  obtain ⟨hmod, herr, hcalls, _⟩ := mainRun_proc fs sorter config args hne
  refine ⟨?_, ?_, ?_⟩
  · rw [mainRun_exitCode, hanyW, hchk]
    rfl
  · intro f hf hw
    rw [hlogsEq]
    simp only [List.count_append]
    have c1 : (missingPathLogs fs args.paths).count
        (LogEvent.print ("  - " ++ pathToString f)) = 0 :=
      List.count_eq_zero.mpr (missingPathLogs_no_print fs args.paths _)
    have c2 : (processFiles sorter config.order config.method_type_order
        args.check args.diff (collectedFiles fs config args)).logs.count
        (LogEvent.print ("  - " ++ pathToString f)) = 0 :=
      List.count_eq_zero.mpr (processFiles_no_print sorter config.order
        config.method_type_order args.check args.diff _ _)
    have c3 : ([LogEvent.warning ("Files that need sorting: " ++
        toString (processFiles sorter config.order config.method_type_order
          args.check args.diff
          (collectedFiles fs config args)).modified_files.length)]).count
        (LogEvent.print ("  - " ++ pathToString f)) = 0 :=
      List.count_eq_zero.mpr (by simp)
    rw [c1, c2, c3, hmodeq]
    have hmem : pathToString f ∈ ((collectedFiles fs config args).filter
        (wasModifiedB sorter config.order config.method_type_order args.check
          args.diff)).map pathToString :=
      List.mem_map_of_mem pathToString (List.mem_filter.mpr ⟨hf, hw⟩)
    have hsub : List.Sublist
        (((collectedFiles fs config args).filter
          (wasModifiedB sorter config.order config.method_type_order args.check
            args.diff)).map pathToString)
        ((collectedFiles fs config args).map pathToString) :=
      List.Sublist.map pathToString (List.filter_sublist _)
    have hnd := List.Nodup.sublist hsub hnodup
    simpa using count_print_map _ f hmem hnd
  · intro c hc
    rw [hcalls, processFiles_calls] at hc
    obtain ⟨g, hg, rfl⟩ := List.mem_map.mp hc
    exact hchk

/-- C7 counterexample: with the same existing `.py` file passed twice under
check mode, the run collects it twice and the final report lists the flagged
file twice, not exactly once. -/
theorem check_mode_lists_flagged_once_cex :
    argsDup.check = true ∧
      wasModifiedB sorterAllTrue cfgUnit.order cfgUnit.method_type_order
        argsDup.check argsDup.diff ["a.py"] = true ∧
      ["a.py"] ∈ collectedFiles fsFiles cfgUnit argsDup ∧
      (mainRun fsFiles sorterAllTrue cfgUnit argsDup).logs.count
        (LogEvent.print ("  - " ++ pathToString ["a.py"])) = 2 := by
  decide

/-- C7 (amended) witness: two distinct flagged files under check mode — exit
code 1 and the first file listed exactly once. -/
theorem check_mode_lists_flagged_once_witness :
    (mainRun fsFiles sorterAllTrue cfgUnit argsChk).exitCode = 1 ∧
      (mainRun fsFiles sorterAllTrue cfgUnit argsChk).logs.count
        (LogEvent.print ("  - " ++ pathToString ["a.py"])) = 1 := by
  have h := check_mode_lists_flagged_once fsFiles sorterAllTrue cfgUnit argsChk
    rfl (by decide) (by decide)
  exact ⟨h.1, h.2.1 ["a.py"] (by decide) (by decide)⟩
